import Mathlib

/-!
Verification of the Shift Claim & Profit Analytics pipeline
(`Load_shifts_final.py` and the `plots/` scripts) against its specification.

The embedding works over an explicit list of offer-event rows.  A pandas
`DataFrame` is a list of `Row` records together with presence flags for the
two optional columns (`IS_VERIFIED`, `IS_NCNS`), collected in `Table`.
Timestamps are modelled as integers (minutes); pandas timestamps are integer
counts of a fixed unit, so this is faithful.  Numeric rates and durations are
rationals, nullable (`Option`) because `pd.to_numeric(..., errors='coerce')`
turns unparsable entries into nulls, and null propagation / null skipping of
pandas reductions is modelled explicitly at each use site.
-/

namespace ShiftAnalysis

/-- One raw offer-event row of `shifts_final.csv` after ingestion:
nullable numeric columns come from `pd.to_numeric(..., errors='coerce')`,
nullable timestamps from `pd.to_datetime`. -/
structure Row where
  shift_id : ℕ := 0
  workplace_id : ℕ := 0
  pay_rate : Option ℚ := none
  charge_rate : Option ℚ := none
  duration : Option ℚ := none
  shift_start_at : ℤ := 0
  offer_viewed_at : Option ℤ := none
  claimed_at : Option ℤ := none
  canceled_at : Option ℤ := none
  is_verified : Option Bool := none
  is_ncns : Option Bool := none
deriving DecidableEq

/-- A loaded dataframe: the rows plus presence flags for the two optional
columns.  Absence of a column is semantically different from an all-null
column (`if 'IS_VERIFIED' in df.columns: ...`), so it is tracked here. -/
structure Table where
  rows : List Row
  hasIsVerified : Bool
  hasIsNcns : Bool
deriving DecidableEq

/-- The CLAIMED column of `Load_shifts_final.py`:
`df['CLAIMED'] = df['CLAIMED_AT'].notna()` — a per-event flag. -/
def CLAIMED (r : Row) : Bool := r.claimed_at.isSome

/-- `claimed_df = df[df['CLAIMED']]`; also the split
`df[df["CLAIMED"].astype(str).str.lower() == "true"]` used by the plot
scripts on the saved CSV, which round-trips the same boolean. -/
def claimed_df (rows : List Row) : List Row := rows.filter (fun r => CLAIMED r)

/-- Complement side of the split:
`df[df["CLAIMED"].astype(str).str.lower() != "true"]`. -/
def unclaimed_df (rows : List Row) : List Row := rows.filter (fun r => !CLAIMED r)

/-- Distinct SHIFT_IDs occurring in a row list (`df['SHIFT_ID'].unique()`). -/
def shift_ids (rows : List Row) : List ℕ := (rows.map (fun r => r.shift_id)).dedup

/-- Sort key of `claimed_df.sort_values(by='CLAIMED_AT')`; only applied to
claimed rows, where CLAIMED_AT is non-null. -/
def claimKey (r : Row) : ℤ := r.claimed_at.getD 0

/-- One insertion step of an insertion sort by CLAIMED_AT. -/
def orderedInsertClaim (a : Row) : List Row → List Row
  | [] => [a]
  | b :: l => if claimKey a ≤ claimKey b then a :: b :: l else b :: orderedInsertClaim a l

/-- An insertion sort by CLAIMED_AT, producing one concrete arrangement
permitted by `sort_values(by='CLAIMED_AT')`.  The pandas call uses the default
`kind='quicksort'`, which is documented as not stable, so the relative order
of rows with exactly equal CLAIMED_AT is NOT a program guarantee: nothing
tie-order-dependent is concluded from this particular choice (the contract
actually guaranteed by the call is `SortValuesClaimedAt` below). -/
def insertionSortClaim : List Row → List Row
  | [] => []
  | a :: l => orderedInsertClaim a (insertionSortClaim l)

/-- `claimed_df_sorted = claimed_df.sort_values(by='CLAIMED_AT')`: one
arrangement consistent with the call's guarantee (a permutation of
`claimed_df` weakly ordered by CLAIMED_AT).  Everything proved below about
this concrete arrangement (the null-skipping IS_VERIFIED lookup, the
exclusion criteria, idempotence) is invariant under the order of exact
CLAIMED_AT ties; the first-claim selection itself is treated against the
contract `SortValuesClaimedAt`, not against this embedding's tie order. -/
def claimed_df_sorted (rows : List Row) : List Row :=
  insertionSortClaim (claimed_df rows)

/-- The IS_VERIFIED entry of shift `s`'s `first_claims` record.  Pandas
`GroupBy.first` skips nulls column-wise, so this is the first non-null
IS_VERIFIED in the sorted group. -/
def first_claims_IS_VERIFIED (rows : List Row) (s : ℕ) : Option Bool :=
  ((claimed_df_sorted rows).filter (fun r => r.shift_id == s)).findSome?
    (fun r => r.is_verified)

/-- `worked` status of shift `s`'s first claim, after the default policy of
`Load_shifts_final.py` lines 27–32: with the IS_VERIFIED column present,
`first_claims['IS_VERIFIED'].fillna(False).astype(bool)`; with the column
absent, `first_claims['IS_VERIFIED'] = True`. -/
def worked (t : Table) (s : ℕ) : Bool :=
  if t.hasIsVerified then (first_claims_IS_VERIFIED t.rows s).getD false else true

/-- Membership test of
`canceled_shift_ids = set(df.loc[df['CANCELED_AT'].notna(), 'SHIFT_ID'])`. -/
def canceled_shift (rows : List Row) (s : ℕ) : Bool :=
  rows.any (fun r => r.shift_id == s && r.canceled_at.isSome)

/-- Membership test of `ncns_shift_ids`, the empty set when the IS_NCNS
column is absent. -/
def ncns_shift (t : Table) (s : ℕ) : Bool :=
  t.hasIsNcns && t.rows.any (fun r => r.shift_id == s && r.is_ncns == some true)

/-- Shift-level claimed status, as in
`claimed_shift_ids = set(claimed_df['SHIFT_ID'])`. -/
def claimed_shift (rows : List Row) (s : ℕ) : Bool :=
  rows.any (fun r => r.shift_id == s && CLAIMED r)

/-- Membership test of `first_claims_not_worked_shift_ids`: the shift has a
`first_claims` record (it is claimed) and that record's worked flag is false. -/
def first_claim_not_worked_shift (t : Table) (s : ℕ) : Bool :=
  claimed_shift t.rows s && !worked t s

/-- Membership test of
`excluded_shift_ids = canceled_shift_ids ∪ ncns_shift_ids ∪ first_claims_not_worked_shift_ids`. -/
def excluded_shift_ids (t : Table) (s : ℕ) : Bool :=
  canceled_shift t.rows s || ncns_shift t s || first_claim_not_worked_shift t s

/-- The Exclusion Filter producing `df_final`:
`df_final = df[~df['SHIFT_ID'].isin(excluded_shift_ids)]`, the defensive
re-check `df_final[df_final['IS_NCNS'] != True]` when IS_NCNS is present,
then the column drops (`IS_VERIFIED`, `IS_NCNS`, fully-null columns).
Dropping the columns is recorded in the presence flags; the CANCELED_AT
column is all-null on the output (proved below), so dropping it is
observationally the identity in this row model. -/
def df_final (t : Table) : Table :=
  { rows :=
      if t.hasIsNcns then
        (t.rows.filter (fun r => !excluded_shift_ids t r.shift_id)).filter
          (fun r => !(r.is_ncns == some true))
      else
        t.rows.filter (fun r => !excluded_shift_ids t r.shift_id),
    hasIsVerified := false,
    hasIsNcns := false }

/-- SHIFT_END_AT of `Load_shifts_final.py` line 72:
`pd.to_datetime(SHIFT_START_AT) + pd.to_timedelta(DURATION, unit='m')`.
Timestamps are in minutes, so DURATION is added as minutes. -/
def SHIFT_END_AT_load (r : Row) : Option ℚ :=
  r.duration.map (fun d => (r.shift_start_at : ℚ) + d)

/-- SHIFT_END_AT of plots 5 and 6:
`SHIFT_START_AT + pd.to_timedelta(DURATION, unit='h')` — the same DURATION
column added as hours, i.e. `60 * d` minutes. -/
def SHIFT_END_AT_plots (r : Row) : Option ℚ :=
  r.duration.map (fun d => (r.shift_start_at : ℚ) + 60 * d)

/-- A shift of 60 DURATION units starting at time 0. -/
def rowC6 : Row := { shift_start_at := 0, duration := some 60 }

/-- C6: the claim asks for one consistent DURATION unit across every
component that derives a shift end time.  The code violates this: for a
row with DURATION 60, `Load_shifts_final.py` (`unit='m'`) ends the shift
60 minutes after the start, while plots 5 and 6 (`unit='h'`) end it
3600 minutes (60 hours) after the start.  The two derived end times
disagree on the same row. -/
theorem c6_duration_unit_inconsistent :
    SHIFT_END_AT_load rowC6 = some 60 ∧ SHIFT_END_AT_plots rowC6 = some 3600 ∧
      SHIFT_END_AT_load rowC6 ≠ SHIFT_END_AT_plots rowC6 := by
  refine ⟨?_, ?_, ?_⟩ <;> norm_num [SHIFT_END_AT_load, SHIFT_END_AT_plots, rowC6]

/-! ### Sorting lemmas for the Claim Resolver -/

/-- Rows listed in weakly increasing CLAIMED_AT order. -/
abbrev KeySorted (l : List Row) : Prop :=
  l.Pairwise (fun a b => claimKey a ≤ claimKey b)

lemma mem_orderedInsertClaim {x a : Row} {l : List Row} :
    x ∈ orderedInsertClaim a l ↔ x = a ∨ x ∈ l := by
  induction l with
  | nil => simp [orderedInsertClaim]
  | cons b l ih =>
    by_cases h : claimKey a ≤ claimKey b
    · simp [orderedInsertClaim, h]
    · simp only [orderedInsertClaim, if_neg h, List.mem_cons, ih]
      tauto

lemma keySorted_orderedInsertClaim {a : Row} {l : List Row} (h : KeySorted l) :
    KeySorted (orderedInsertClaim a l) := by
  induction l with
  | nil => simp [orderedInsertClaim, KeySorted]
  | cons b l ih =>
    rcases (List.pairwise_cons.mp h) with ⟨hb, hl⟩
    by_cases hab : claimKey a ≤ claimKey b
    · rw [orderedInsertClaim, if_pos hab]
      refine List.pairwise_cons.mpr ⟨?_, h⟩
      intro x hx
      rcases List.mem_cons.mp hx with rfl | hx
      · exact hab
      · exact le_trans hab (hb x hx)
    · rw [orderedInsertClaim, if_neg hab]
      refine List.pairwise_cons.mpr ⟨?_, ih hl⟩
      intro x hx
      rcases mem_orderedInsertClaim.mp hx with rfl | hx
      · exact le_of_not_le hab
      · exact hb x hx

lemma mem_insertionSortClaim {x : Row} {l : List Row} :
    x ∈ insertionSortClaim l ↔ x ∈ l := by
  induction l with
  | nil => simp [insertionSortClaim]
  | cons a l ih => simp [insertionSortClaim, mem_orderedInsertClaim, ih]

lemma keySorted_insertionSortClaim (l : List Row) : KeySorted (insertionSortClaim l) := by
  induction l with
  | nil => simp [insertionSortClaim, KeySorted]
  | cons a l ih => exact keySorted_orderedInsertClaim ih

lemma head?_mem_row {l : List Row} {r : Row} (h : l.head? = some r) : r ∈ l := by
  cases l <;> simp_all

lemma perm_orderedInsertClaim (a : Row) (l : List Row) :
    (orderedInsertClaim a l).Perm (a :: l) := by
  induction l with
  | nil => simp [orderedInsertClaim]
  | cons b l ih =>
    by_cases h : claimKey a ≤ claimKey b
    · rw [orderedInsertClaim, if_pos h]
    · rw [orderedInsertClaim, if_neg h]
      exact (List.Perm.cons b ih).trans (List.Perm.swap a b l)

lemma perm_insertionSortClaim (l : List Row) : (insertionSortClaim l).Perm l := by
  induction l with
  | nil => simp [insertionSortClaim]
  | cons a l ih =>
    rw [insertionSortClaim]
    exact (perm_orderedInsertClaim a _).trans (List.Perm.cons a ih)

/-- The guarantee actually made by `claimed_df.sort_values(by='CLAIMED_AT')`
with the default `kind='quicksort'`: the output is a permutation of the input
weakly ordered by CLAIMED_AT.  Pandas documents only `kind='mergesort'` /
`'stable'` as stable, so no tie order beyond this contract may be assumed. -/
def SortValuesClaimedAt (l sorted : List Row) : Prop :=
  sorted.Perm l ∧ KeySorted sorted

/-- The head of a key-sorted list bounds the keys of all its members. -/
lemma head?_le_of_keySorted {L : List Row} (h : KeySorted L) {r : Row}
    (hr : L.head? = some r) : ∀ x ∈ L, claimKey r ≤ claimKey x := by
  cases L with
  | nil => cases hr
  | cons a L =>
    obtain rfl : a = r := by simpa using hr
    intro x hx
    rcases List.mem_cons.mp hx with hxa | hxl
    · rw [hxa]
    · exact (List.pairwise_cons.mp h).1 x hxl

/-- Claimed events of shift 1 with a CLAIMED_AT tie between the second and
third input rows. -/
def rowE1 : Row := { shift_id := 1, claimed_at := some 5 }

def rowE2 : Row := { shift_id := 1, claimed_at := some 3, pay_rate := some 20 }

def rowE3 : Row := { shift_id := 1, claimed_at := some 3, pay_rate := some 21 }

def rowsC2 : List Row := [rowE1, rowE2, rowE3]

/-- C2 counterexample: the claim's tie-break conjunct — on an exact
CLAIMED_AT tie the input-earlier event is selected, "the sort by claimed_at
is stable" — is not a guarantee of the program.  `sort_values` is called with
the default `kind='quicksort'`, whose documented contract is only
`SortValuesClaimedAt`; the arrangement `[rowE3, rowE2, rowE1]` satisfies that
contract for `rowsC2`, yet its group head for shift 1 is `rowE3`, the LATER
input row of the tie, not the input-earliest `rowE2`. -/
theorem c2_counterexample :
    ¬ ∀ sorted, SortValuesClaimedAt (claimed_df rowsC2) sorted →
        (sorted.filter (fun r => r.shift_id == 1)).head? = some rowE2 := by
  intro hall
  have h := hall [rowE3, rowE2, rowE1] (by exact ⟨by decide, by decide⟩)
  have h3 : (([rowE3, rowE2, rowE1].filter (fun r => r.shift_id == 1)).head?)
      = some rowE3 := by decide
  rw [h3] at h
  have : rowE3 = rowE2 := by injection h
  exact absurd this (by decide)

/-- C2 (amended): for every shift with at least one claimed event, the
selected `first_claims` record has the minimum CLAIMED_AT among the shift's
claimed events — and this holds for EVERY arrangement satisfying the
guarantee of `sort_values(by='CLAIMED_AT')` (a permutation of `claimed_df`
weakly ordered by CLAIMED_AT), of which the file's concrete
`claimed_df_sorted` is one instance.  Which of several events tying exactly
on CLAIMED_AT is selected is not guaranteed (the default sort kind is not
stable; see `c2_counterexample`). -/
theorem c2_first_claim_min (rows : List Row) (s : ℕ) :
    SortValuesClaimedAt (claimed_df rows) (claimed_df_sorted rows)
    ∧ ∀ sorted, SortValuesClaimedAt (claimed_df rows) sorted →
        ∀ r, (sorted.filter (fun x => x.shift_id == s)).head? = some r →
          r ∈ rows ∧ r.shift_id = s ∧ ∃ c, r.claimed_at = some c ∧
            ∀ r' ∈ rows, r'.shift_id = s → ∀ c', r'.claimed_at = some c' → c ≤ c' := by
  constructor
  · exact ⟨perm_insertionSortClaim _, keySorted_insertionSortClaim _⟩
  · rintro sorted ⟨hperm, hsort⟩ r hr
    have hrf : r ∈ sorted.filter (fun x => x.shift_id == s) := head?_mem_row hr
    have hrs : r ∈ sorted := List.mem_of_mem_filter hrf
    have hps : r.shift_id = s := by
      have := List.of_mem_filter hrf
      simpa using this
    have hrc : r ∈ claimed_df rows := hperm.mem_iff.mp hrs
    have hrows : r ∈ rows := List.mem_of_mem_filter hrc
    have hclaimed : r.claimed_at.isSome = true := by
      have := List.of_mem_filter hrc
      simpa [CLAIMED] using this
    rcases Option.isSome_iff_exists.mp hclaimed with ⟨c, hc⟩
    refine ⟨hrows, hps, c, hc, ?_⟩
    intro r' hr' hs' c' hc'
    have hr'c : r' ∈ claimed_df rows :=
      List.mem_filter.mpr ⟨hr', by simp [CLAIMED, hc']⟩
    have hr's : r' ∈ sorted := hperm.mem_iff.mpr hr'c
    have hr'f : r' ∈ sorted.filter (fun x => x.shift_id == s) :=
      List.mem_filter.mpr ⟨hr's, by simp [hs']⟩
    have hsf : KeySorted (sorted.filter (fun x => x.shift_id == s)) :=
      List.Pairwise.sublist (List.filter_sublist _) hsort
    have := head?_le_of_keySorted hsf hr r' hr'f
    simpa [claimKey, hc, hc'] using this

/-- Witness for C2 amended: the concrete `claimed_df_sorted` satisfies the
sort contract, and the record it selects for shift 1 of `rowsC2` carries the
minimal CLAIMED_AT among the shift's claimed events. -/
theorem c2_witness :
    SortValuesClaimedAt (claimed_df rowsC2) (claimed_df_sorted rowsC2)
    ∧ (rowE2 ∈ rowsC2 ∧ rowE2.shift_id = 1 ∧ ∃ c, rowE2.claimed_at = some c ∧
        ∀ r' ∈ rowsC2, r'.shift_id = 1 → ∀ c', r'.claimed_at = some c' → c ≤ c') :=
  ⟨(c2_first_claim_min rowsC2 1).1,
   (c2_first_claim_min rowsC2 1).2 (claimed_df_sorted rowsC2)
     ⟨by decide, by decide⟩ rowE2 (by decide)⟩

/-! ### C3: verification default policy -/

/-- C3: with the IS_VERIFIED column present, a null value on the first-claim
record (in particular when every claimed event of the shift has a null
IS_VERIFIED) defaults to `worked = false`, and a non-null value is taken as
is; with the column absent, every first claim is treated as worked. -/
theorem c3_verification_default_policy (t : Table) (s : ℕ) :
    (t.hasIsVerified = true → first_claims_IS_VERIFIED t.rows s = none →
      worked t s = false)
    ∧ (t.hasIsVerified = true →
        (∀ r ∈ t.rows, r.shift_id = s → r.is_verified = none) → worked t s = false)
    ∧ (t.hasIsVerified = true → ∀ b, first_claims_IS_VERIFIED t.rows s = some b →
        worked t s = b)
    ∧ (t.hasIsVerified = false → worked t s = true) := by
  refine ⟨?_, ?_, ?_, ?_⟩
  · intro hv hn
    simp [worked, hv, hn]
  · intro hv hall
    have hn : first_claims_IS_VERIFIED t.rows s = none := by
      rw [first_claims_IS_VERIFIED, List.findSome?_eq_none_iff]
      intro x hx
      have hx1 : x ∈ claimed_df_sorted t.rows := List.mem_of_mem_filter hx
      have hx2 : x.shift_id = s := by simpa using List.of_mem_filter hx
      have hx3 : x ∈ t.rows :=
        List.mem_of_mem_filter (mem_insertionSortClaim.mp hx1)
      exact hall x hx3 hx2
    simp [worked, hv, hn]
  · intro hv b hb
    simp [worked, hv, hb]
  · intro hv
    simp [worked, hv]

/-- A claimed event of shift 1 whose IS_VERIFIED entry is null. -/
def rowV : Row := { shift_id := 1, claimed_at := some 4 }

/-- Dataset containing `rowV` with the IS_VERIFIED column present. -/
def tblV : Table := { rows := [rowV], hasIsVerified := true, hasIsNcns := false }

/-- The same rows with the IS_VERIFIED column absent. -/
def tblNoV : Table := { rows := [rowV], hasIsVerified := false, hasIsNcns := false }

/-- Witness for C3: the same null-IS_VERIFIED first claim is not worked when
the column is present and worked when the column is absent. -/
theorem c3_witness : worked tblV 1 = false ∧ worked tblNoV 1 = true :=
  ⟨(c3_verification_default_policy tblV 1).2.1 rfl (by decide),
   (c3_verification_default_policy tblNoV 1).2.2.2 rfl⟩

/-! ### C4: exclusion criteria and all-or-nothing filtering -/

/-- The specification's exclusion criteria for a shift (§4.3): some event
canceled, or — with the IS_NCNS column present — some event a no-call-no-show,
or the shift claimed with its first claim not worked. -/
def ExcludedCriteria (t : Table) (s : ℕ) : Prop :=
  (∃ r ∈ t.rows, r.shift_id = s ∧ r.canceled_at ≠ none)
  ∨ (t.hasIsNcns = true ∧ ∃ r ∈ t.rows, r.shift_id = s ∧ r.is_ncns = some true)
  ∨ ((∃ r ∈ t.rows, r.shift_id = s ∧ r.claimed_at ≠ none) ∧ worked t s = false)

lemma canceled_shift_iff (rows : List Row) (s : ℕ) :
    canceled_shift rows s = true ↔ ∃ r ∈ rows, r.shift_id = s ∧ r.canceled_at ≠ none := by
  simp [canceled_shift, List.any_eq_true, Option.isSome_iff_ne_none]

lemma ncns_shift_iff (t : Table) (s : ℕ) :
    ncns_shift t s = true ↔
      t.hasIsNcns = true ∧ ∃ r ∈ t.rows, r.shift_id = s ∧ r.is_ncns = some true := by
  simp [ncns_shift, List.any_eq_true]

lemma claimed_shift_iff (rows : List Row) (s : ℕ) :
    claimed_shift rows s = true ↔ ∃ r ∈ rows, r.shift_id = s ∧ r.claimed_at ≠ none := by
  simp [claimed_shift, List.any_eq_true, CLAIMED, Option.isSome_iff_ne_none]

lemma first_claim_not_worked_iff (t : Table) (s : ℕ) :
    first_claim_not_worked_shift t s = true ↔
      (∃ r ∈ t.rows, r.shift_id = s ∧ r.claimed_at ≠ none) ∧ worked t s = false := by
  rw [first_claim_not_worked_shift, Bool.and_eq_true, claimed_shift_iff,
    Bool.not_eq_true']

lemma excluded_shift_ids_iff (t : Table) (s : ℕ) :
    excluded_shift_ids t s = true ↔ ExcludedCriteria t s := by
  rw [ExcludedCriteria, excluded_shift_ids, Bool.or_eq_true, Bool.or_eq_true,
    canceled_shift_iff, ncns_shift_iff, first_claim_not_worked_iff, or_assoc]

/-- C4: an event survives the Exclusion Filter iff its shift matches none of
the three exclusion criteria.  In particular filtering is all-or-nothing per
shift: every event of an excluded shift is dropped and no event of a
non-excluded shift is dropped. -/
theorem c4_excluded_iff_criteria (t : Table) (r : Row) (h : r ∈ t.rows) :
    r ∈ (df_final t).rows ↔ ¬ ExcludedCriteria t r.shift_id := by
  have hiff := excluded_shift_ids_iff t r.shift_id
  by_cases hn : t.hasIsNcns = true
  · simp only [df_final, hn, if_true]
    constructor
    · intro hin hex
      have h1 := List.mem_filter.mp (List.mem_of_mem_filter hin)
      have h2 : excluded_shift_ids t r.shift_id = false := by simpa using h1.2
      have := hiff.mpr hex
      rw [h2] at this
      exact Bool.false_ne_true this
    · intro hnex
      refine List.mem_filter.mpr ⟨List.mem_filter.mpr ⟨h, ?_⟩, ?_⟩
      · have hne : excluded_shift_ids t r.shift_id ≠ true := fun hh => hnex (hiff.mp hh)
        simp [Bool.not_eq_true] at hne
        simp [hne]
      · by_cases hv : r.is_ncns = some true
        · exact absurd (Or.inr (Or.inl ⟨hn, r, h, rfl, hv⟩)) hnex
        · simp [hv]
  · have hn' : t.hasIsNcns = false := by simpa using hn
    simp only [df_final, hn', Bool.false_eq_true, if_false]
    constructor
    · intro hin hex
      have h1 := List.mem_filter.mp hin
      have h2 : excluded_shift_ids t r.shift_id = false := by simpa using h1.2
      have := hiff.mpr hex
      rw [h2] at this
      exact Bool.false_ne_true this
    · intro hnex
      refine List.mem_filter.mpr ⟨h, ?_⟩
      have hne : excluded_shift_ids t r.shift_id ≠ true := fun hh => hnex (hiff.mp hh)
      simp [Bool.not_eq_true] at hne
      simp [hne]

/-- Scenario B, a claimed event of shift 1… -/
def rowB1 : Row := { shift_id := 1, claimed_at := some 10 }

/-- …and a canceled event of the same shift. -/
def rowB2 : Row := { shift_id := 1, canceled_at := some 2 }

def tblB : Table := { rows := [rowB1, rowB2], hasIsVerified := false, hasIsNcns := false }

/-- Witness for C4 (Scenario B): the legitimate claim event of a shift with a
cancellation on another event is governed by the exclusion criteria, and the
shift is indeed excluded, so the claim event is dropped. -/
theorem c4_witness :
    (rowB1 ∈ (df_final tblB).rows ↔ ¬ ExcludedCriteria tblB rowB1.shift_id) ∧
      ExcludedCriteria tblB rowB1.shift_id :=
  ⟨c4_excluded_iff_criteria tblB rowB1 (by decide),
   Or.inl ⟨rowB2, by decide, by decide, by decide⟩⟩

/-! ### C5: idempotence of the Exclusion Filter -/

@[simp] lemma df_final_hasIsVerified (t : Table) : (df_final t).hasIsVerified = false := rfl

@[simp] lemma df_final_hasIsNcns (t : Table) : (df_final t).hasIsNcns = false := rfl

lemma canceled_at_none_of_mem_df_final {t : Table} {r : Row}
    (h : r ∈ (df_final t).rows) : r.canceled_at = none := by
  have hk : r ∈ t.rows.filter (fun x => !excluded_shift_ids t x.shift_id) := by
    by_cases hn : t.hasIsNcns = true
    · simp only [df_final, hn, if_true] at h
      exact List.mem_of_mem_filter h
    · have hn' : t.hasIsNcns = false := by simpa using hn
      simpa only [df_final, hn', Bool.false_eq_true, if_false] using h
  rcases List.mem_filter.mp hk with ⟨hmem, hexc⟩
  have hfalse : excluded_shift_ids t r.shift_id = false := by simpa using hexc
  have hcanc : canceled_shift t.rows r.shift_id = false := by
    rcases Bool.or_eq_false_iff.mp (Bool.or_eq_false_iff.mp
      (by simpa [excluded_shift_ids] using hfalse)).1 with ⟨h1, _⟩
    exact h1
  by_contra hne
  have : r.canceled_at.isSome = true := Option.isSome_iff_ne_none.mpr hne
  have : canceled_shift t.rows r.shift_id = true := by
    rw [canceled_shift, List.any_eq_true]
    exact ⟨r, hmem, by simp [this]⟩
  rw [hcanc] at this
  exact Bool.false_ne_true this

/-- C5: re-running the Exclusion Filter on its own output — including the
IS_VERIFIED / IS_NCNS column drops that output records — changes nothing:
the filtered cohort has no canceled events left, the IS_NCNS criterion is
vacuous with the column dropped, and with IS_VERIFIED dropped every first
claim counts as worked, so no shift is excluded in the second pass. -/
theorem c5_exclusion_filter_idempotent (t : Table) :
    df_final (df_final t) = df_final t := by
  have hexc : ∀ r ∈ (df_final t).rows,
      excluded_shift_ids (df_final t) r.shift_id = false := by
    intro r hr
    have hcanc : canceled_shift (df_final t).rows r.shift_id = false := by
      rw [canceled_shift, List.any_eq_false]
      intro x hx
      have := canceled_at_none_of_mem_df_final hx
      simp [this]
    have hncns : ncns_shift (df_final t) r.shift_id = false := by
      simp [ncns_shift]
    have hwork : worked (df_final t) r.shift_id = true := by
      simp [worked]
    simp [excluded_shift_ids, hcanc, hncns, first_claim_not_worked_shift, hwork]
  have hfilter : (df_final t).rows.filter
      (fun r => !excluded_shift_ids (df_final t) r.shift_id) = (df_final t).rows := by
    apply List.filter_eq_self.mpr
    intro r hr
    simp [hexc r hr]
  calc df_final (df_final t)
      = { rows := (df_final t).rows, hasIsVerified := false, hasIsNcns := false } := by
        rw [df_final]
        simp only [df_final_hasIsNcns, Bool.false_eq_true, if_false, hfilter]
    _ = df_final t := rfl

/-! ### C1: the claimed/unclaimed split of the plot scripts -/

/-- A claimed and an unclaimed event of the same shift 1. -/
def rowM1 : Row := { shift_id := 1, claimed_at := some 10, duration := some 8 }

def rowM2 : Row := { shift_id := 1, offer_viewed_at := some 0, duration := some 8 }

def rowsMixed : List Row := [rowM1, rowM2]

/-- C1 counterexample: CLAIMED is a per-event flag and the downstream split
(`claimed_df` / `unclaimed_df`) splits rows, not shifts: shift 1 has one
claimed and one unclaimed event and its events land on both sides of the
split, refuting "no shift's events appear on both sides". -/
theorem c1_counterexample :
    1 ∈ shift_ids (claimed_df rowsMixed) ∧ 1 ∈ shift_ids (unclaimed_df rowsMixed) := by
  decide

/-- C1 (amended): the derived CLAIMED boolean is per event — true iff that
event's `claimed_at` is non-null — and the split used downstream partitions
events: each row is on exactly one side, the claimed side iff its own
`claimed_at` is non-null; at the shift level, a shift contributes to the
claimed side iff at least one of its events has non-null `claimed_at`. -/
theorem c1_split_partitions_events (rows : List Row) :
    (∀ r ∈ rows, (r ∈ claimed_df rows ↔ r.claimed_at ≠ none)
      ∧ (r ∈ unclaimed_df rows ↔ r.claimed_at = none))
    ∧ (∀ s, s ∈ shift_ids (claimed_df rows) ↔
        ∃ r ∈ rows, r.shift_id = s ∧ r.claimed_at ≠ none) := by
  constructor
  · intro r hr
    constructor
    · simp [claimed_df, List.mem_filter, hr, CLAIMED, Option.isSome_iff_ne_none]
    · simp [unclaimed_df, List.mem_filter, hr, CLAIMED, Option.isSome_iff_ne_none]
  · intro s
    simp only [shift_ids, List.mem_dedup, List.mem_map, claimed_df, List.mem_filter,
      CLAIMED, Option.isSome_iff_ne_none]
    constructor
    · rintro ⟨r, ⟨hr, hc⟩, hs⟩
      exact ⟨r, hr, hs, hc⟩
    · rintro ⟨r, hr, hs, hc⟩
      exact ⟨r, ⟨hr, hc⟩, hs⟩

/-- Witness for C1 amended: the event-level and shift-level characterizations
at the two-event shift of the counterexample. -/
theorem c1_witness :
    (rowM1 ∈ claimed_df rowsMixed ↔ rowM1.claimed_at ≠ none) ∧
      (1 ∈ shift_ids (claimed_df rowsMixed) ↔
        ∃ r ∈ rowsMixed, r.shift_id = 1 ∧ r.claimed_at ≠ none) :=
  ⟨((c1_split_partitions_events rowsMixed).1 rowM1 (by decide)).1,
   (c1_split_partitions_events rowsMixed).2 1⟩

/-! ### Plot 1a / 1b: totals for claimed versus unclaimed shifts -/

/-- Profit summand of a claimed row in plot 1a:
`(CHARGE_RATE - PAY_RATE) * DURATION`, null when any factor is null. -/
def profit_term (r : Row) : Option ℚ :=
  match r.charge_rate, r.pay_rate, r.duration with
  | some c, some p, some d => some ((c - p) * d)
  | _, _, _ => none

/-- `claimed_profit = ((claimed_df.CHARGE_RATE - claimed_df.PAY_RATE) *
claimed_df.DURATION).sum()`: one summand per claimed event row, nulls
skipped by pandas `.sum()`. -/
def claimed_profit (rows : List Row) : ℚ :=
  ((claimed_df rows).filterMap profit_term).sum

/-- `claimed_hours = claimed_df['DURATION'].sum()`: one summand per claimed
event row. -/
def claimed_hours (rows : List Row) : ℚ :=
  ((claimed_df rows).filterMap (fun r => r.duration)).sum

/-- Null-skipping maximum of pandas `.max()`: none on an all-null column. -/
def listMax : List ℚ → Option ℚ
  | [] => none
  | x :: xs => some (xs.foldl max x)

/-- `max_offers = unclaimed_df.groupby('SHIFT_ID')['PAY_RATE'].max()` at
shift `s`. -/
def max_offers (rows : List Row) (s : ℕ) : Option ℚ :=
  listMax (((unclaimed_df rows).filter (fun r => r.shift_id == s)).filterMap
    (fun r => r.pay_rate))

/-- Representative row of `unclaimed_df.drop_duplicates('SHIFT_ID', keep='first')`
for shift `s`. -/
def first_unclaimed (rows : List Row) (s : ℕ) : Option Row :=
  (unclaimed_df rows).find? (fun r => r.shift_id == s)

/-- `unclaimed_df.groupby('SHIFT_ID')['DURATION'].first()` at shift `s`:
pandas `GroupBy.first` takes the first non-null entry of the group. -/
def first_duration_unclaimed (rows : List Row) (s : ℕ) : Option ℚ :=
  ((unclaimed_df rows).filter (fun r => r.shift_id == s)).findSome?
    (fun r => r.duration)

/-- The one-row-per-shift index of `max_offers` / `merged_unclaimed` in
plot 1a. -/
def merged_unclaimed_ids (rows : List Row) : List ℕ := shift_ids (unclaimed_df rows)

/-- `unclaimed_hours = unclaimed_df.groupby('SHIFT_ID')['DURATION'].first().sum()`:
one summand per distinct unclaimed SHIFT_ID.  The groupby sums each key once;
`+` is commutative, so the sum is taken over the set of keys. -/
def unclaimed_hours (rows : List Row) : ℚ :=
  ∑ s ∈ ((unclaimed_df rows).map (fun r => r.shift_id)).toFinset,
    (first_duration_unclaimed rows s).getD 0

lemma first_duration_unclaimed_append {rows : List Row} {r : Row}
    (hc : CLAIMED r = false) (s : ℕ)
    (hs : s = r.shift_id → first_duration_unclaimed rows s ≠ none) :
    first_duration_unclaimed (rows ++ [r]) s = first_duration_unclaimed rows s := by
  have h1 : unclaimed_df (rows ++ [r]) = unclaimed_df rows ++ [r] := by
    simp [unclaimed_df, List.filter_append, hc]
  rw [first_duration_unclaimed, h1, List.filter_append]
  by_cases hsr : r.shift_id = s
  · have h2 : [r].filter (fun x => x.shift_id == s) = [r] := by simp [hsr]
    rw [h2]
    rcases hd : first_duration_unclaimed rows s with _ | d
    · exact absurd hd (hs hsr.symm)
    · rw [first_duration_unclaimed] at hd
      simp [List.findSome?_append, hd]
  · have h2 : [r].filter (fun x => x.shift_id == s) = [] := by simp [hsr]
    rw [h2, List.append_nil, first_duration_unclaimed]

/-- C10: asymmetry of the claimed/unclaimed totals in plots 1a and 1b.
Appending one more claimed event adds its own duration and its own profit
term to the claimed totals (one summand per claimed event), whereas appending
a further unclaimed event of a shift already present (with a recorded
duration) leaves `unclaimed_hours` unchanged (one summand per shift);
and the merged unclaimed summary indexes each unclaimed shift exactly once. -/
theorem c10_claimed_per_event_unclaimed_per_shift (rows : List Row) (r : Row) :
    (∀ d, CLAIMED r = true → r.duration = some d →
        claimed_hours (rows ++ [r]) = claimed_hours rows + d)
    ∧ (∀ v, CLAIMED r = true → profit_term r = some v →
        claimed_profit (rows ++ [r]) = claimed_profit rows + v)
    ∧ (CLAIMED r = false →
        first_duration_unclaimed rows r.shift_id ≠ none →
        unclaimed_hours (rows ++ [r]) = unclaimed_hours rows)
    ∧ (merged_unclaimed_ids rows).Nodup := by
  refine ⟨?_, ?_, ?_, List.nodup_dedup _⟩
  · intro d hc hd
    simp [claimed_hours, claimed_df, List.filter_append, List.filterMap_append, hc, hd]
  · intro v hc hv
    simp [claimed_profit, claimed_df, List.filter_append, List.filterMap_append, hc, hv]
  · intro hc hd
    have h1 : unclaimed_df (rows ++ [r]) = unclaimed_df rows ++ [r] := by
      simp [unclaimed_df, List.filter_append, hc]
    have hmem : r.shift_id ∈ ((unclaimed_df rows).map (fun x => x.shift_id)) := by
      rcases hd' : first_duration_unclaimed rows r.shift_id with _ | d
      · exact absurd hd' hd
      · rw [first_duration_unclaimed] at hd'
        rcases List.exists_of_findSome?_eq_some hd' with ⟨x, hx, _⟩
        rcases List.mem_filter.mp hx with ⟨hx1, hx2⟩
        exact List.mem_map.mpr ⟨x, hx1, by simpa using hx2⟩
    have hfin : ((unclaimed_df (rows ++ [r])).map (fun x => x.shift_id)).toFinset
        = ((unclaimed_df rows).map (fun x => x.shift_id)).toFinset := by
      rw [h1]
      simp only [List.map_append, List.toFinset_append, List.map_cons, List.map_nil,
        List.toFinset_cons, List.toFinset_nil, insert_emptyc_eq]
      exact Finset.union_eq_left.mpr (by simp [List.mem_toFinset.mpr hmem])
    rw [unclaimed_hours, unclaimed_hours, hfin]
    refine Finset.sum_congr rfl ?_
    intro s _
    rw [first_duration_unclaimed_append hc s (fun hsr => hsr ▸ hd)]

/-- Existing unclaimed event of shift 2. -/
def rowU1 : Row := { shift_id := 2, duration := some 5, offer_viewed_at := some 0 }

/-- A further unclaimed event of shift 2. -/
def rowU2 : Row := { shift_id := 2, duration := some 7, offer_viewed_at := some 0 }

/-- A claimed event of shift 2. -/
def rowCl : Row :=
  { shift_id := 2, claimed_at := some 1, duration := some 8,
    charge_rate := some 30, pay_rate := some 20 }

def rowsTot : List Row := [rowU1]

/-- Witness for C10: appending a claimed event grows the claimed totals by
its own summand, while appending a second unclaimed event of the same shift
leaves the unclaimed hours total unchanged. -/
theorem c10_witness :
    claimed_hours (rowsTot ++ [rowCl]) = claimed_hours rowsTot + 8
    ∧ claimed_profit (rowsTot ++ [rowCl]) = claimed_profit rowsTot + (30 - 20) * 8
    ∧ unclaimed_hours (rowsTot ++ [rowU2]) = unclaimed_hours rowsTot :=
  ⟨(c10_claimed_per_event_unclaimed_per_shift rowsTot rowCl).1 8 (by decide) rfl,
   (c10_claimed_per_event_unclaimed_per_shift rowsTot rowCl).2.1 ((30 - 20) * 8)
     (by decide) rfl,
   (c10_claimed_per_event_unclaimed_per_shift rowsTot rowU2).2.2.1 (by decide)
     (by decide)⟩

/-! ### Plots 4b / 5 / 6: percentage profit margins under the charge guard -/

/-- The percentage profit-margin formula
`(CHARGE_RATE - PAY_RATE) / CHARGE_RATE * 100`, written once and shared by the
claimed computation and the unclaimed highest-offer computation. -/
def PROFIT_MARGIN_pct (c p : ℚ) : ℚ := (c - p) / c * 100

/-- Null propagation of the margin formula over nullable rates. -/
def pm_pct_opt (c p : Option ℚ) : Option ℚ :=
  match c, p with
  | some c, some p => some (PROFIT_MARGIN_pct c p)
  | _, _ => none

/-- The guard `df = df[df["CHARGE_RATE"] > 0]` of plots 4b, 5 and 6; a null
CHARGE_RATE compares false in pandas and is dropped too. -/
def chargePos (r : Row) : Bool :=
  match r.charge_rate with
  | some c => decide (0 < c)
  | none => false

def df_4b (rows : List Row) : List Row := rows.filter chargePos

/-- `claimed_df["PROFIT_MARGIN"]` of plot 4b: one `(SHIFT_ID, margin)` entry
per claimed row surviving the charge guard. -/
def claimed_PROFIT_MARGIN_4b (rows : List Row) : List (ℕ × Option ℚ) :=
  (claimed_df (df_4b rows)).map
    (fun r => (r.shift_id, pm_pct_opt r.charge_rate r.pay_rate))

/-- `max_payrates = unclaimed_df.groupby("SHIFT_ID")["PAY_RATE"].max()` of
plot 4b, at shift `s`. -/
def max_payrates_4b (rows : List Row) (s : ℕ) : Option ℚ :=
  listMax (((unclaimed_df (df_4b rows)).filter (fun r => r.shift_id == s)).filterMap
    (fun r => r.pay_rate))

/-- `unclaimed_summary` of plot 4b: per unclaimed SHIFT_ID, the margin at the
highest offer against the representative first row's CHARGE_RATE. -/
def unclaimed_summary_4b (rows : List Row) : List (ℕ × Option ℚ) :=
  (shift_ids (unclaimed_df (df_4b rows))).map (fun s =>
    (s, match (unclaimed_df (df_4b rows)).find? (fun r => r.shift_id == s),
          max_payrates_4b rows s with
        | some r0, some m => pm_pct_opt r0.charge_rate (some m)
        | _, _ => none))

lemma le_foldl_max (xs : List ℚ) (a : ℚ) : a ≤ xs.foldl max a := by
  induction xs generalizing a with
  | nil => exact le_refl a
  | cons b xs ih =>
    rw [List.foldl_cons]
    exact le_trans (le_max_left a b) (ih (max a b))

lemma mem_le_foldl_max {xs : List ℚ} {x : ℚ} (hx : x ∈ xs) : ∀ a, x ≤ xs.foldl max a := by
  induction xs with
  | nil => cases hx
  | cons b xs ih =>
    intro a
    rw [List.foldl_cons]
    rcases List.mem_cons.mp hx with hxb | hx'
    · rw [hxb]
      exact le_trans (le_max_right a b) (le_foldl_max xs (max a b))
    · exact ih hx' (max a b)

lemma listMax_le_of_mem {l : List ℚ} {x : ℚ} (hx : x ∈ l) :
    ∃ m, listMax l = some m ∧ x ≤ m := by
  cases l with
  | nil => cases hx
  | cons y ys =>
    refine ⟨ys.foldl max y, rfl, ?_⟩
    rcases List.mem_cons.mp hx with hxy | hx'
    · rw [hxy]
      exact le_foldl_max ys y
    · exact mem_le_foldl_max hx' y

/-- Scenario C rows: an unclaimed shift 7 offered at pay rates 18, 22, 20 with
charge rate 30 and duration 8. -/
def rowC7a : Row :=
  { shift_id := 7, pay_rate := some 18, charge_rate := some 30, duration := some 8 }

def rowC7b : Row :=
  { shift_id := 7, pay_rate := some 22, charge_rate := some 30, duration := some 8 }

def rowC7c : Row :=
  { shift_id := 7, pay_rate := some 20, charge_rate := some 30, duration := some 8 }

def rowsC7 : List Row := [rowC7a, rowC7b, rowC7c]

/-- C7: for a shift none of whose events is claimed, the grouped
`max_offers` maximum ranges over all events recorded for the shift, so it
dominates every recorded pay rate; the unclaimed margin applies the same
`PROFIT_MARGIN_pct` formula at the maximum offer; and on Scenario C
(offers 18, 22, 20 at charge rate 30) the maximum is 22 and the margin is
`(30 - 22)/30*100 = 80/3`, whose one-decimal rounding is 26.7. -/
theorem c7_unclaimed_max_offer (rows : List Row) (s : ℕ)
    (hall : ∀ r ∈ rows, r.shift_id = s → CLAIMED r = false) :
    max_offers rows s
        = listMax ((rows.filter (fun r => r.shift_id == s)).filterMap (fun r => r.pay_rate))
    ∧ (∀ r ∈ rows, r.shift_id = s → ∀ p, r.pay_rate = some p →
        ∃ m, max_offers rows s = some m ∧ p ≤ m)
    ∧ (∀ s', s' ∈ shift_ids (unclaimed_df (df_4b rows)) → ∀ r0 m c,
        (unclaimed_df (df_4b rows)).find? (fun r => r.shift_id == s') = some r0 →
        max_payrates_4b rows s' = some m → r0.charge_rate = some c →
        (s', some (PROFIT_MARGIN_pct c m)) ∈ unclaimed_summary_4b rows)
    ∧ max_offers rowsC7 7 = some 22
    ∧ (7, some (PROFIT_MARGIN_pct 30 22)) ∈ unclaimed_summary_4b rowsC7
    ∧ PROFIT_MARGIN_pct 30 22 = 80 / 3
    ∧ round ((80 : ℚ) / 3 * 10) = 267 := by
  have hgroup : (unclaimed_df rows).filter (fun r => r.shift_id == s)
      = rows.filter (fun r => r.shift_id == s) := by
    rw [unclaimed_df, List.filter_filter]
    apply List.filter_congr
    intro x hx
    cases hxs : (x.shift_id == s) with
    | true =>
      have := hall x hx (by simpa using hxs)
      simp [this]
    | false => simp
  refine ⟨?_, ?_, ?_, ?_, ?_, ?_, ?_⟩
  · rw [max_offers, hgroup]
  · intro r hr hs p hp
    have hru : r ∈ unclaimed_df rows :=
      List.mem_filter.mpr ⟨hr, by simp [hall r hr hs]⟩
    have hrg : r ∈ (unclaimed_df rows).filter (fun x => x.shift_id == s) :=
      List.mem_filter.mpr ⟨hru, by simp [hs]⟩
    have hpmem : p ∈ ((unclaimed_df rows).filter
        (fun x => x.shift_id == s)).filterMap (fun x => x.pay_rate) :=
      List.mem_filterMap.mpr ⟨r, hrg, hp⟩
    exact listMax_le_of_mem hpmem
  · intro s' hs' r0 m c hfind hmax hc
    apply List.mem_map.mpr
    refine ⟨s', hs', ?_⟩
    rw [hfind, hmax]
    simp [pm_pct_opt, hc]
  · show some (max (max (18 : ℚ) 22) 20) = some 22
    norm_num [max_def]
  · have h1 : shift_ids (unclaimed_df (df_4b rowsC7)) = [7] := by decide
    have h2 : (unclaimed_df (df_4b rowsC7)).find? (fun r => r.shift_id == 7)
        = some rowC7a := by decide
    have h3 : max_payrates_4b rowsC7 7 = some 22 := by
      show some (max (max (18 : ℚ) 22) 20) = some 22
      norm_num [max_def]
    rw [unclaimed_summary_4b, h1]
    simp only [List.map_cons, List.map_nil]
    rw [h2, h3]
    simp [pm_pct_opt, rowC7a]
  · norm_num [PROFIT_MARGIN_pct]
  · norm_num [round_eq]

/-- Witness for C7: on Scenario C every hypothesis is satisfiable; the
recorded offer 18 is dominated by the grouped maximum, which is 22. -/
theorem c7_witness :
    (∃ m, max_offers rowsC7 7 = some m ∧ 18 ≤ m) ∧ max_offers rowsC7 7 = some 22 :=
  ⟨(c7_unclaimed_max_offer rowsC7 7 (by decide)).2.1 rowC7a (by decide) rfl 18 rfl,
   (c7_unclaimed_max_offer rowsC7 7 (by decide)).2.2.2.1⟩

/-! ### Plots 7a / 7b: view-to-start latency buckets -/

/-- Minutes between OFFER_VIEWED_AT and SHIFT_START_AT (timestamps are
minute-valued integers). -/
def MINUTES_DIFF (r : Row) : Option ℤ :=
  r.offer_viewed_at.map (fun v => r.shift_start_at - v)

/-- `HOURS_DIFF = (SHIFT_START_AT - OFFER_VIEWED_AT).dt.total_seconds()/3600`,
null when OFFER_VIEWED_AT is null: the minutes difference divided by 60. -/
def HOURS_DIFF (r : Row) : Option ℚ :=
  (MINUTES_DIFF r).map (fun (m : ℤ) => (m : ℚ) / 60)

/-- Row test of `df = df[df["HOURS_DIFF"] >= 0]`: `HOURS_DIFF ≥ 0` holds iff
the minutes difference is ≥ 0 (division by the positive constant 60 preserves
sign), and a null HOURS_DIFF compares false in pandas.  The hour-level
reading is proved in `c9_view_latency_aggregations`. -/
def latency_keep (r : Row) : Bool :=
  match MINUTES_DIFF r with
  | some m => decide (0 ≤ m)
  | none => false

def latency_df (rows : List Row) : List Row := rows.filter latency_keep

/-- `pd.cut(HOURS_DIFF, bins=range(0, 721, 24), right=False)` expressed in
minutes: the half-open hour bin `[24*b, 24*(b+1))` is the minute interval
`[1440*b, 1440*(b+1))` and hours outside `[0, 720)` — minutes outside
`[0, 43200)` — fall in no bin.  The hour-level characterization is proved in
`c9_view_latency_aggregations`. -/
def TIME_BUCKET_DAYS (m : ℤ) : Option ℕ :=
  if 0 ≤ m ∧ m < 43200 then some (m.toNat / 1440) else none

def row_bucket (r : Row) : Option ℕ := (MINUTES_DIFF r).bind TIME_BUCKET_DAYS

/-- `total_counts = df.groupby("TIME_BUCKET_DAYS")["SHIFT_ID"].nunique()`. -/
def total_counts (rows : List Row) (b : ℕ) : ℕ :=
  (shift_ids ((latency_df rows).filter (fun r => row_bucket r == some b))).length

/-- Unique claimed shifts per bucket in plot 7a. -/
def claimed_counts (rows : List Row) (b : ℕ) : ℕ :=
  (shift_ids ((claimed_df (latency_df rows)).filter
    (fun r => row_bucket r == some b))).length

/-- `percent_claimed`, reported only on `valid_buckets`, the buckets with
`total_counts >= 50`. -/
def percent_claimed (rows : List Row) (b : ℕ) : Option ℚ :=
  if 50 ≤ total_counts rows b then
    some ((claimed_counts rows b : ℚ) / (total_counts rows b : ℚ) * 100)
  else none

/-- Plot 7b's absolute profit margin `CHARGE_RATE - PAY_RATE`: no division
and no charge-rate guard. -/
def PROFIT_MARGIN_7b (c p : Option ℚ) : Option ℚ :=
  match c, p with
  | some c, some p => some (c - p)
  | _, _ => none

/-- The per-row claimed margin series of plot 7b, after the latency filter. -/
def claimed_PM_7b (rows : List Row) : List (ℕ × Option ℚ) :=
  (claimed_df (latency_df rows)).map
    (fun r => (r.shift_id, PROFIT_MARGIN_7b r.charge_rate r.pay_rate))

/-- Null-skipping mean of pandas `.mean()`: null on an empty (or all-null)
group. -/
def mean? : List ℚ → Option ℚ
  | [] => none
  | l => some (l.sum / (l.length : ℚ))

/-- Average claimed margin of bucket `b` in plot 7b, before the reindex. -/
def claimed_pm_avg_7b (rows : List Row) (b : ℕ) : Option ℚ :=
  mean? (((claimed_df (latency_df rows)).filter
    (fun r => row_bucket r == some b)).filterMap
      (fun r => PROFIT_MARGIN_7b r.charge_rate r.pay_rate))

/-- `claimed_pm_avg.reindex(full_bins).fillna(0)` at bin `b`. -/
def claimed_pm_avg_filled (rows : List Row) (b : ℕ) : ℚ :=
  (claimed_pm_avg_7b rows b).getD 0

/-- Plot 7b's unclaimed margin of shift `s`: representative first row's
CHARGE_RATE minus the highest PAY_RATE offered. -/
def unclaimed_pm_7b (rows : List Row) (s : ℕ) : Option ℚ :=
  match first_unclaimed (latency_df rows) s,
      listMax (((unclaimed_df (latency_df rows)).filter
        (fun r => r.shift_id == s)).filterMap (fun r => r.pay_rate)) with
  | some r0, some m => PROFIT_MARGIN_7b r0.charge_rate (some m)
  | _, _ => none

/-- Average unclaimed margin of bucket `b` in plot 7b: each unclaimed shift
sits in the bucket of its representative (first) row. -/
def unclaimed_pm_avg_7b (rows : List Row) (b : ℕ) : Option ℚ :=
  mean? ((merged_unclaimed_ids (latency_df rows)).filterMap (fun s =>
    match first_unclaimed (latency_df rows) s with
    | some r0 => if row_bucket r0 == some b then unclaimed_pm_7b rows s else none
    | none => none))

/-- `unclaimed_pm_avg.reindex(full_bins).fillna(0)` at bin `b`. -/
def unclaimed_pm_avg_filled (rows : List Row) (b : ℕ) : ℚ :=
  (unclaimed_pm_avg_7b rows b).getD 0

/-! ### C8: the charge guard protects percentage margins only -/

/-- Scenario D row: a claimed shift with `charge_rate = 0`, viewed before
its start. -/
def rowD : Row :=
  { shift_id := 1, claimed_at := some 3, charge_rate := some 0,
    pay_rate := some 5, offer_viewed_at := some 0 }

def tblD : Table := { rows := [rowD], hasIsVerified := false, hasIsNcns := false }

/-- C8 counterexample: plot 7b computes a profit-margin aggregation
(`PROFIT_MARGIN = CHARGE_RATE - PAY_RATE`) with no charge-rate guard, so the
claimed shift with `charge_rate = 0` contributes the margin entry `-5` to it —
it is not excluded from every profit-margin computation. -/
theorem c8_counterexample :
    (1, PROFIT_MARGIN_7b (some 0) (some 5)) ∈ claimed_PM_7b [rowD]
    ∧ rowD.charge_rate = some 0
    ∧ PROFIT_MARGIN_7b (some 0) (some 5) = some (-5) := by
  refine ⟨List.mem_singleton.mpr rfl, rfl, ?_⟩
  norm_num [PROFIT_MARGIN_7b]

/-- C8 (amended): every entry of the percentage profit-margin computations of
plot 4b (claimed side and unclaimed highest-offer side) comes from a shift
with a recorded positive charge rate, so the division by CHARGE_RATE never
sees a non-positive number; and the guard acts at the metric boundary only:
the Scenario D shift (claimed, `charge_rate = 0`) stays in the clean cohort
and in the raw claim counts while producing no percentage-margin entry.  The
absolute-dollar margin of plot 7b applies no such guard
(`c8_counterexample`). -/
theorem c8_charge_guard_pct_margins_only (rows : List Row) :
    (∀ s q, (s, q) ∈ claimed_PROFIT_MARGIN_4b rows →
        ∃ r ∈ rows, r.shift_id = s ∧ ∃ c, r.charge_rate = some c ∧ 0 < c)
    ∧ (∀ s q, (s, q) ∈ unclaimed_summary_4b rows →
        ∃ r ∈ rows, r.shift_id = s ∧ ∃ c, r.charge_rate = some c ∧ 0 < c)
    ∧ rowD ∈ (df_final tblD).rows
    ∧ claimed_shift tblD.rows 1 = true
    ∧ claimed_PROFIT_MARGIN_4b (df_final tblD).rows = [] := by
  have hpos : ∀ r : Row, chargePos r = true → ∃ c, r.charge_rate = some c ∧ 0 < c := by
    intro r hc
    rcases hcr : r.charge_rate with _ | c
    · rw [chargePos, hcr] at hc
      cases hc
    · rw [chargePos, hcr, decide_eq_true_eq] at hc
      exact ⟨c, rfl, hc⟩
  refine ⟨?_, ?_, by decide, by decide, by decide⟩
  · intro s q hm
    rcases List.mem_map.mp hm with ⟨r, hr, heq⟩
    have hr4 : r ∈ df_4b rows := List.mem_of_mem_filter hr
    rcases List.mem_filter.mp hr4 with ⟨hrrows, hcp⟩
    rcases hpos r hcp with ⟨c, hc, hcpos⟩
    have hs : r.shift_id = s := congrArg Prod.fst heq
    exact ⟨r, hrrows, hs, c, hc, hcpos⟩
  · intro s q hm
    rcases List.mem_map.mp hm with ⟨s', hs', heq⟩
    have hss : s' = s := congrArg Prod.fst heq
    subst hss
    rcases List.mem_dedup.mp hs' with hmem
    rcases List.mem_map.mp hmem with ⟨r, hru, hs⟩
    have hr4 : r ∈ df_4b rows := List.mem_of_mem_filter hru
    rcases List.mem_filter.mp hr4 with ⟨hrrows, hcp⟩
    rcases hpos r hcp with ⟨c, hc, hcpos⟩
    exact ⟨r, hrrows, hs, c, hc, hcpos⟩

/-- A claimed row with positive charge rate… -/
def rows8 : List Row :=
  [{ shift_id := 3, claimed_at := some 2, charge_rate := some 25, pay_rate := some 20 }]

/-- …and an unclaimed row with positive charge rate. -/
def rows8u : List Row :=
  [{ shift_id := 4, charge_rate := some 25, pay_rate := some 18,
     offer_viewed_at := some 0 }]

/-- Witness for C8 amended: both margin computations of plot 4b have
satisfiable membership hypotheses, yielding the recorded positive charge
rate. -/
theorem c8_witness :
    (∃ r ∈ rows8, r.shift_id = 3 ∧ ∃ c, r.charge_rate = some c ∧ 0 < c)
    ∧ (∃ r ∈ rows8u, r.shift_id = 4 ∧ ∃ c, r.charge_rate = some c ∧ 0 < c) :=
  ⟨(c8_charge_guard_pct_margins_only rows8).1 3 _ (List.mem_singleton.mpr rfl),
   (c8_charge_guard_pct_margins_only rows8u).2.1 4 _ (List.mem_singleton.mpr rfl)⟩

/-! ### C9: latency filtering, bucketing, significance floor and zero fill -/

lemma latency_keep_iff (r : Row) :
    latency_keep r = true ↔ ∃ h, HOURS_DIFF r = some h ∧ 0 ≤ h := by
  rcases hv : r.offer_viewed_at with _ | v
  · simp [latency_keep, MINUTES_DIFF, HOURS_DIFF, hv]
  · have hm : MINUTES_DIFF r = some (r.shift_start_at - v) := by
      simp [MINUTES_DIFF, hv]
    rw [latency_keep, hm, HOURS_DIFF, hm]
    simp only [Option.map_some', Option.some.injEq, decide_eq_true_eq]
    constructor
    · intro h0
      exact ⟨_, rfl, div_nonneg (by exact_mod_cast h0) (by norm_num)⟩
    · rintro ⟨h, heq, h0⟩
      rw [← heq] at h0
      have h1 : (0 : ℚ) ≤ ((r.shift_start_at - v : ℤ) : ℚ) := by
        have := (le_div_iff₀ (by norm_num : (0 : ℚ) < 60)).mp h0
        simpa using this
      exact_mod_cast h1

lemma TIME_BUCKET_DAYS_eq_some_iff (m : ℤ) (b : ℕ) :
    TIME_BUCKET_DAYS m = some b ↔
      1440 * (b : ℤ) ≤ m ∧ m < 1440 * ((b : ℤ) + 1) ∧ b < 30 := by
  rw [TIME_BUCKET_DAYS]
  by_cases hc : 0 ≤ m ∧ m < 43200
  · rw [if_pos hc]
    obtain ⟨h0, h1⟩ := hc
    simp only [Option.some.injEq]
    constructor
    · intro hb
      subst hb
      omega
    · rintro ⟨hb1, hb2, hb3⟩
      omega
  · rw [if_neg hc]
    constructor
    · intro h
      exact Option.noConfusion h
    · rintro ⟨hb1, hb2, hb3⟩
      exfalso
      omega

/-- The minute-interval bucket test agrees with the hour-level half-open
24-hour bins over `[0, 720)` used by `pd.cut`. -/
lemma hour_bucket_bridge (m : ℤ) (b : ℕ) :
    (24 * (b : ℚ) ≤ (m : ℚ) / 60 ∧ (m : ℚ) / 60 < 24 * ((b : ℚ) + 1) ∧ b < 30)
      ↔ (1440 * (b : ℤ) ≤ m ∧ m < 1440 * ((b : ℤ) + 1) ∧ b < 30) := by
  have h60 : (0 : ℚ) < 60 := by norm_num
  constructor
  · rintro ⟨h1, h2, h3⟩
    refine ⟨?_, ?_, h3⟩
    · have ha := (le_div_iff₀ h60).mp h1
      have hb : (1440 : ℚ) * (b : ℚ) ≤ (m : ℚ) := by linarith
      exact_mod_cast hb
    · have ha := (div_lt_iff₀ h60).mp h2
      have hb : (m : ℚ) < 1440 * ((b : ℚ) + 1) := by linarith
      exact_mod_cast hb
  · rintro ⟨h1, h2, h3⟩
    refine ⟨?_, ?_, h3⟩
    · rw [le_div_iff₀ h60]
      have ha : (1440 : ℚ) * (b : ℚ) ≤ (m : ℚ) := by exact_mod_cast h1
      linarith
    · rw [div_lt_iff₀ h60]
      have ha : (m : ℚ) < 1440 * ((b : ℚ) + 1) := by exact_mod_cast h2
      linarith

/-- C9: negative view-to-start latencies are discarded while zero and
positive ones are kept; bucket assignment is by fixed-width half-open
24-hour bins over `[0, 720)` hours; a claim percentage is reported for a
bucket only when its unique-shift total is at least 50; and empty buckets of
the 7b margin-by-day aggregation are filled with 0 rather than omitted. -/
theorem c9_view_latency_aggregations (rows : List Row) (r : Row) (b : ℕ) :
    (r ∈ rows → (r ∈ latency_df rows ↔ ∃ h, HOURS_DIFF r = some h ∧ 0 ≤ h))
    ∧ (∀ h, HOURS_DIFF r = some h →
        (row_bucket r = some b ↔
          24 * (b : ℚ) ≤ h ∧ h < 24 * ((b : ℚ) + 1) ∧ b < 30))
    ∧ (∀ p, percent_claimed rows b = some p → 50 ≤ total_counts rows b)
    ∧ (claimed_pm_avg_7b rows b = none → claimed_pm_avg_filled rows b = 0)
    ∧ (unclaimed_pm_avg_7b rows b = none → unclaimed_pm_avg_filled rows b = 0) := by
  refine ⟨?_, ?_, ?_, ?_, ?_⟩
  · intro hr
    rw [latency_df, List.mem_filter, latency_keep_iff]
    simp [hr]
  · intro h hh
    rcases hv : r.offer_viewed_at with _ | v
    · rw [HOURS_DIFF, MINUTES_DIFF, hv] at hh
      simp at hh
    · have hm : MINUTES_DIFF r = some (r.shift_start_at - v) := by
        simp [MINUTES_DIFF, hv]
      rw [HOURS_DIFF, hm] at hh
      simp only [Option.map_some', Option.some.injEq] at hh
      subst hh
      rw [row_bucket, hm, Option.some_bind, TIME_BUCKET_DAYS_eq_some_iff]
      exact (hour_bucket_bridge _ b).symm
  · intro p hp
    rw [percent_claimed] at hp
    by_cases h50 : 50 ≤ total_counts rows b
    · exact h50
    · rw [if_neg h50] at hp
      exact Option.noConfusion hp
  · intro hnone
    rw [claimed_pm_avg_filled, hnone]
    rfl
  · intro hnone
    rw [unclaimed_pm_avg_filled, hnone]
    rfl

/-- An event viewed exactly at its shift start. -/
def row9 : Row := { shift_id := 11, offer_viewed_at := some 0 }

def rows9 : List Row := [row9]

/-- Fifty distinct shifts viewed at their start, filling bucket 0 up to the
significance floor. -/
def rows50 : List Row :=
  (List.range 50).map (fun i => { shift_id := i, offer_viewed_at := some 0 })

/-- Witness for C9: the latency-filter and bucket characterizations at a
concrete row, a bucket that genuinely reaches the 50-shift floor, and the
zero fill on an empty aggregation. -/
theorem c9_witness :
    (row9 ∈ latency_df rows9 ↔ ∃ h, HOURS_DIFF row9 = some h ∧ 0 ≤ h)
    ∧ (row_bucket row9 = some 0 ↔
        24 * ((0 : ℕ) : ℚ) ≤ ((0 - 0 : ℤ) : ℚ) / 60
          ∧ ((0 - 0 : ℤ) : ℚ) / 60 < 24 * (((0 : ℕ) : ℚ) + 1) ∧ (0 : ℕ) < 30)
    ∧ 50 ≤ total_counts rows50 0
    ∧ claimed_pm_avg_filled [] 0 = 0
    ∧ unclaimed_pm_avg_filled [] 0 = 0 :=
  ⟨(c9_view_latency_aggregations rows9 row9 0).1 (by decide),
   (c9_view_latency_aggregations rows9 row9 0).2.1 (((0 - 0 : ℤ) : ℚ) / 60) rfl,
   (c9_view_latency_aggregations rows50 row9 0).2.2.1 _ rfl,
   (c9_view_latency_aggregations [] row9 0).2.2.2.1 rfl,
   (c9_view_latency_aggregations [] row9 0).2.2.2.2 rfl⟩

end ShiftAnalysis
